import Mathlib

/-!
# Verification of the Nova core server against its specification

Shallow embedding, in Lean 4, of the parts of the Nova repository that the
frozen claims are about:

* the configuration loader (`packages/nova-core/src/core/config.ts`),
* the plugin manifest validation and loader (`core/plugin-loader.ts`),
* the plugin registry (`core/plugin-registry.ts`),
* the JSON-RPC WebSocket transport (`transport/websocket.ts`),
* the streaming PTY session and the legacy PTY session
  (`plugins/claude_cli/pty-session.js`) and the CLI plugin
  (`plugins/claude_cli/index.js`),
* the project-path decoder (`services/projects.ts`) and the session bulk
  delete (`packages/mcp/src/server.ts`).

JavaScript strings are embedded as Lean `String`s except in the path decoder,
where segments are embedded as `List Char` so that the splitting functions can
be reasoned about by structural induction.  JS falsiness of a string is
embedded as equality with `""`.  Filesystem and subprocess behaviour are
embedded as explicit inputs (which paths exist, which lines the subprocess
emits, its exit code), and `Promise`-rejection / `throw` as `Except`.
-/

namespace Nova

/-! ## Config loader (`core/config.ts`, class `ConfigLoader`) -/

namespace Config

/-- Post-parse plugin configuration, mirroring `PluginConfigSchema`:
`{ enabled: boolean (default true), agents?: Record<string, boolean>,
options?: Record<string, unknown> }`.  The `agents` mapping is embedded as an
association list. -/
structure PluginConfig where
  enabled : Bool
  agents : Option (List (String × Bool))
  deriving Repr, DecidableEq

/-- Post-parse Nova configuration, mirroring `NovaConfigSchema`'s `plugins`
record (the only part `isAgentEnabled` consults). -/
structure NovaConfig where
  plugins : List (String × PluginConfig)
  deriving Repr, DecidableEq

/-- `config.plugins[pluginName]`: record lookup. -/
def lookupPlugin (cfg : NovaConfig) (pluginName : String) : Option PluginConfig :=
  (cfg.plugins.find? (fun p => p.1 = pluginName)).map (·.2)

/-- `pluginConfig.agents[agentId]`: record lookup in the agents mapping. -/
def lookupAgent (agents : List (String × Bool)) (agentId : String) : Option Bool :=
  (agents.find? (fun p => p.1 = agentId)).map (·.2)

/-- `ConfigLoader.isPluginEnabled` (config.ts lines 114-124). -/
def isPluginEnabled (cfg : NovaConfig) (pluginName : String) : Bool :=
  match lookupPlugin cfg pluginName with
  | none => true
  | some pluginConfig => pluginConfig.enabled

/-- `ConfigLoader.isAgentEnabled` (config.ts lines 129-150):
if the plugin is not configured, all agents are enabled; if the plugin is
disabled, all agents are disabled; if `agents` is not specified, all agents
are enabled; otherwise `pluginConfig.agents[agentId] ?? true`. -/
def isAgentEnabled (cfg : NovaConfig) (pluginName agentId : String) : Bool :=
  match lookupPlugin cfg pluginName with
  | none => true
  | some pluginConfig =>
    if !pluginConfig.enabled then false
    else
      match pluginConfig.agents with
      | none => true
      | some agents => (lookupAgent agents agentId).getD true

end Config

/-! ## PTY sessions (`plugins/claude_cli/pty-session.js`)

The subprocess's behaviour is an input of the embedding: the stream of
newline-terminated lines it emits (each either a successfully parsed JSON
record or a raw line on which `JSON.parse` throws) followed by its exit code.
A JS string-valued field that may be absent is embedded as `String`, with
`""` standing for absent/falsy, matching the `||`/truthiness tests of the
source. -/

namespace Pty

/-- Internal session state of `StreamingPTYSession` (`SessionState` union). -/
inductive SState
  | initializing | ready | processing | idle | error | stopped
  deriving Repr, DecidableEq

/-- A parsed streaming-JSON record from the subprocess: the fields the session
inspects (`type`, `subtype`, `session_id`, `is_error`). -/
structure CMsg where
  type : String
  subtype : String
  sessionId : String
  isError : Bool
  deriving Repr, DecidableEq

/-- One complete line of subprocess output, after the `JSON.parse` attempt in
`processLine`: either a parsed record or a raw non-JSON line. -/
inductive ParsedLine
  | json (m : CMsg)
  | raw (s : String)
  deriving Repr, DecidableEq

/-- Event `type` field of a `SessionEvent`. -/
inductive EvType
  | output | error | complete | status | init | interactivePrompt
  deriving Repr, DecidableEq

/-- Event `data` payloads as built at each emission site. -/
inductive EvData
  | msg (m : CMsg)
  | raw (s : String)
  | err (s : String)
  | initData (m : CMsg) (claudeSessionId : String)
  | completeData (exitCode : Int) (claudeSessionId : String)
  deriving Repr, DecidableEq

/-- A `SessionEvent` (timestamp omitted: no claim concerns it). -/
structure Event where
  sessionId : String
  type : EvType
  data : EvData
  deriving Repr, DecidableEq

/-- Mutable fields of a `StreamingPTYSession` that the embedded methods read
or write. -/
structure SessState where
  id : String
  claudeSessionId : String
  state : SState
  messageCount : Nat
  exitCode : Option Int
  projectPath : String
  deriving Repr, DecidableEq

/-- The `StreamingPTYSession` constructor (pty-session.js lines 364-375):
`id` from the time+random scheme (embedded as an arbitrary string input),
`_claudeSessionId = options.sessionId || ''`, state `initializing`. -/
def mkSession (id projectPath sessionIdOpt : String) : SessState :=
  { id := id
    claudeSessionId := sessionIdOpt
    state := .initializing
    messageCount := 0
    exitCode := none
    projectPath := projectPath }

/-- `emitOutput(message)` (lines 637-644). -/
def emitOutput (st : SessState) (m : CMsg) : Event :=
  { sessionId := st.id, type := .output, data := .msg m }

/-- `handleInit(message)` (lines 589-610): capture `session_id` if truthy
(unconditionally overwriting), set state `ready`, emit an `init` event
carrying the current `_claudeSessionId`, then also emit the record as
`output`. -/
def handleInit (st : SessState) (m : CMsg) : SessState × List Event :=
  let st1 := if m.sessionId ≠ "" then { st with claudeSessionId := m.sessionId } else st
  let st2 := { st1 with state := .ready }
  (st2, [{ sessionId := st2.id, type := .init, data := .initData m st2.claudeSessionId },
         emitOutput st2 m])

/-- `handleResult(message)` (lines 617-633): capture `session_id` only when
still unset, set state `idle`, forward as `output`. -/
def handleResult (st : SessState) (m : CMsg) : SessState × List Event :=
  let st1 := if m.sessionId ≠ "" ∧ st.claudeSessionId = "" then
      { st with claudeSessionId := m.sessionId } else st
  let st2 := { st1 with state := .idle }
  (st2, [emitOutput st2 m])

/-- `handleMessage(message)` (lines 558-585): the `switch` on `message.type`.
-/
def handleMessage (st : SessState) (m : CMsg) : SessState × List Event :=
  if m.type = "system" then
    if m.subtype = "init" then handleInit st m
    else (st, [emitOutput st m])
  else if m.type = "assistant" then
    ({ st with state := .processing }, [emitOutput { st with state := .processing } m])
  else if m.type = "result" then
    handleResult st m
  else if m.type = "user" then
    (st, [emitOutput st m])
  else
    (st, [emitOutput st m])

/-- `processLine(line)` (lines 537-554): parsed JSON goes to `handleMessage`;
a line on which `JSON.parse` throws is emitted as raw `output`. -/
def processLine (st : SessState) (l : ParsedLine) : SessState × List Event :=
  match l with
  | .json m => handleMessage st m
  | .raw s => (st, [{ sessionId := st.id, type := .output, data := .raw s }])

/-- `handleExit(exitCode)` (lines 648-663): record the exit code, state
`stopped` on 0 and `error` otherwise, emit a single `complete` event carrying
the exit code and the current `_claudeSessionId`. -/
def handleExit (st : SessState) (exitCode : Int) : SessState × List Event :=
  let st1 := { st with exitCode := some exitCode,
                       state := if exitCode = 0 then SState.stopped else SState.error }
  (st1, [{ sessionId := st1.id, type := .complete, data := .completeData exitCode st1.claudeSessionId }])

/-- Process a stream of complete lines in order (the per-line dispatch of
`handleData`). -/
def runLines : SessState → List ParsedLine → SessState × List Event
  | st, [] => (st, [])
  | st, l :: ls =>
    let r1 := processLine st l
    let r2 := runLines r1.1 ls
    (r2.1, r1.2 ++ r2.2)

/-- Environment facts consulted by `start` (lines 414-479): the prompt, and
whether `findClaudeBinary` succeeds, whether `existsSync(projectPath)` holds,
and whether the `/my/projects/ → /my_projects/` substituted path exists. -/
structure StartInput where
  prompt : String
  binaryFound : Bool
  pathExists : Bool
  fixedPathExists : Bool
  deriving Repr, DecidableEq

/-- Outcome of `start`. -/
inductive StartResult
  | failed (st : SessState) (events : List Event)
  | thrown
  | spawned (st : SessState)
  deriving Repr, DecidableEq

/-- `start(initialPrompt)` (lines 414-479): an empty (falsy) prompt emits a
single `error` event and returns; then `findClaudeBinary()` may throw (the
returned promise rejects, no event); then if neither the project path nor the
heuristically fixed path exists, a single `error` event is emitted and the
method returns; otherwise the subprocess is spawned, state becomes
`processing` and `messageCount` is incremented. -/
def start (st : SessState) (inp : StartInput) : StartResult :=
  if inp.prompt = "" then
    .failed { st with state := .error }
      [{ sessionId := st.id, type := .error,
         data := .err "Initial prompt is required for hybrid mode" }]
  else if !inp.binaryFound then
    .thrown
  else if inp.pathExists || inp.fixedPathExists then
    .spawned { st with state := .processing, messageCount := st.messageCount + 1 }
  else
    .failed { st with state := .error }
      [{ sessionId := st.id, type := .error,
         data := .err ("Project path does not exist: " ++ st.projectPath) }]

/-- One whole execution of a session: `start`, then (if spawned) the
subprocess's lines are processed in order and its exit is handled.  Returns
the final state and the full sequence of events delivered (in order) to every
subscriber. -/
def runSession (st : SessState) (inp : StartInput) (lines : List ParsedLine)
    (exitCode : Int) : SessState × List Event :=
  match start st inp with
  | .failed st' evs => (st', evs)
  | .thrown => (st, [])
  | .spawned st1 =>
    let r2 := runLines st1 lines
    let r3 := handleExit r2.1 exitCode
    (r3.1, r2.2 ++ r3.2)

/-- `sendMessage(_content)` (lines 685-693): unconditionally returns
`{success:false}` with the hybrid-mode error string; the session state is
untouched and nothing is written to the subprocess (the third component is
the list of strings written to the PTY, always empty). -/
structure MessageResult where
  success : Bool
  error : Option String
  deriving Repr, DecidableEq

/-- The hybrid-mode error string of `sendMessage`. -/
def hybridModeError : String :=
  "In hybrid mode, create a new session with resumeSessionId for follow-up messages"

/-- `StreamingPTYSession.sendMessage` (lines 685-693). -/
def sendMessage (st : SessState) (_content : String) :
    SessState × MessageResult × List String :=
  (st, { success := false, error := some hybridModeError }, [])

/-- `ClaudeCLIPlugin.message(sessionId, message)` (index.js lines 123-130):
look the session up in the plugin's `sessions` map; unknown session yields
`{success:false, error:"Session '…' not found"}`, otherwise delegate to
`sendMessage`. -/
def pluginMessage (sessions : List (String × SessState)) (sessionId content : String) :
    MessageResult × List String :=
  match (sessions.find? (fun p => p.1 = sessionId)).map (·.2) with
  | none => ({ success := false, error := some ("Session '" ++ sessionId ++ "' not found") }, [])
  | some st =>
    let r := sendMessage st content
    (r.2.1, r.2.2)

/-- Legacy `PTYSession` (the first, superseded class in pty-session.js):
fields used by its `handleOutput`. -/
structure LegacyState where
  id : String
  deriving Repr, DecidableEq

/-- The per-line body of legacy `PTYSession.handleOutput` (lines 150-185):
on a parsed `system`/`init` record with a truthy `session_id`, `this.id` is
reassigned to the upstream id, and the emitted event carries the new id. -/
def legacyProcessLine (st : LegacyState) (l : ParsedLine) : LegacyState × Event :=
  match l with
  | .json m =>
    let st1 := if m.type = "system" ∧ m.subtype = "init" ∧ m.sessionId ≠ "" then
        { st with id := m.sessionId } else st
    (st1, { sessionId := st1.id, type := .output, data := .msg m })
  | .raw s => (st, { sessionId := st.id, type := .output, data := .raw s })

end Pty

/-! ## Plugin registry (`core/plugin-registry.ts`) and JSON-RPC WebSocket
transport (`transport/websocket.ts`)

The transport's service handlers (`projectService`, `sessionService`) perform
file I/O; their outcomes (a result, or a rejected promise) are inputs of the
embedding, as is the environment consulted when a session is started. -/

namespace Transport

/-- JSON-RPC `id`: `number | string`; a frame without an `id` is embedded with
`Option`. -/
inductive RpcId
  | num (n : Int)
  | str (s : String)
  deriving Repr, DecidableEq

/-- An agent of a loaded plugin (`IAgent`: the fields `invoke` consults). -/
structure Agent where
  id : String
  enabled : Bool
  deriving Repr, DecidableEq

/-- A loaded plugin (`INovaPlugin`: the fields the registry consults). -/
structure Plugin where
  name : String
  agents : List Agent
  deriving Repr, DecidableEq

/-- `plugin.getAgent(agentId)` (index.js lines 73-75). -/
def getAgent (p : Plugin) (agentId : String) : Option Agent :=
  p.agents.find? (fun a => a.id = agentId)

/-- `PluginRegistry` state: the `plugins` map, the `sessionToPlugin` map, and
the CLI plugin's `sessions` map (the only plugin implementation in the
repository). -/
structure Registry where
  plugins : List (String × Plugin)
  sessionToPlugin : List (String × String)
  cliSessions : List (String × Pty.SessState)
  deriving Repr, DecidableEq

/-- `this.plugins.get(name)`. -/
def getPlugin (reg : Registry) (name : String) : Option Plugin :=
  (reg.plugins.find? (fun p => p.1 = name)).map (·.2)

/-- The public session view `invoke` returns (index.js lines 109-118; the
fields the transport forwards). -/
structure SessView where
  id : String
  claudeSessionId : String
  deriving Repr, DecidableEq

/-- Environment consulted while creating and starting a session: the fresh id
the constructor generates, and the facts `start` checks. -/
structure InvokeEnv where
  freshId : String
  binaryFound : Bool
  pathExists : Bool
  fixedPathExists : Bool
  deriving Repr, DecidableEq

/-- `ClaudeCLIPlugin.invoke(agentId, options)` (index.js lines 79-118):
re-check the agent (throwing on unknown/disabled), construct a
`StreamingPTYSession`, `await session.start(prompt)` and return the public
view.  The second component counts subprocesses spawned (0 on every path
where `pty.spawn` is not reached). -/
def cliInvoke (plugin : Plugin) (agentId prompt projectPath : String)
    (env : InvokeEnv) : Except String SessView × Nat :=
  match getAgent plugin agentId with
  | none => (.error ("Agent '" ++ agentId ++ "' not found"), 0)
  | some agent =>
    if agent.enabled = false then (.error ("Agent '" ++ agentId ++ "' is disabled"), 0)
    else
      match Pty.start (Pty.mkSession env.freshId projectPath "")
          ⟨prompt, env.binaryFound, env.pathExists, env.fixedPathExists⟩ with
      | .thrown =>
        (.error "Claude binary not found. Install with: npm install -g @anthropic-ai/claude-code", 0)
      | .failed st' _ => (.ok ⟨st'.id, st'.claudeSessionId⟩, 0)
      | .spawned st1 => (.ok ⟨st1.id, st1.claudeSessionId⟩, 1)

/-- `PluginRegistry.invoke(pluginName, agentId, options)` (plugin-registry.ts
lines 124-148): throw `Plugin '…' not found` / `Agent '…' not found in
plugin '…'` / `Agent '…' is disabled` before delegating to the plugin's
`invoke`.  The second component counts subprocesses spawned. -/
def registryInvoke (reg : Registry) (pluginName agentId prompt projectPath : String)
    (env : InvokeEnv) : Except String SessView × Nat :=
  match getPlugin reg pluginName with
  | none => (.error ("Plugin '" ++ pluginName ++ "' not found"), 0)
  | some plugin =>
    match getAgent plugin agentId with
    | none =>
      (.error ("Agent '" ++ agentId ++ "' not found in plugin '" ++ pluginName ++ "'"), 0)
    | some agent =>
      if agent.enabled = false then (.error ("Agent '" ++ agentId ++ "' is disabled"), 0)
      else cliInvoke plugin agentId prompt projectPath env

/-- `PluginRegistry.message(sessionId, message)` (plugin-registry.ts lines
155-162): unknown session yields `{success:false}`; otherwise delegate to
the owning plugin's `message`. -/
def registryMessage (reg : Registry) (sessionId content : String) : Pty.MessageResult :=
  match (reg.sessionToPlugin.find? (fun p => p.1 = sessionId)).map (·.2) with
  | none => { success := false, error := some ("Session '" ++ sessionId ++ "' not found") }
  | some pluginName =>
    match getPlugin reg pluginName with
    | none => { success := false, error := some ("Session '" ++ sessionId ++ "' not found") }
    | some _ => (Pty.pluginMessage reg.cliSessions sessionId content).1

/-- `PluginRegistry.getSession` composed with the transport's
`handleSessionGet` throw (websocket.ts lines 415-429). -/
def registryGetSession (reg : Registry) (sessionId : String) : Option Pty.SessState :=
  match (reg.sessionToPlugin.find? (fun p => p.1 = sessionId)).map (·.2) with
  | none => none
  | some pluginName =>
    match getPlugin reg pluginName with
    | none => none
    | some _ => (reg.cliSessions.find? (fun p => p.1 = sessionId)).map (·.2)

/-- JSON-RPC request params, as destructured (unvalidated) by the handlers;
absent fields are embedded as `""`/`[]` (the handlers pass them through). -/
structure Params where
  plugin : String
  agent : String
  prompt : String
  projectPath : String
  sessionId : String
  message : String
  projectId : String
  sessionIds : List String
  deriving Repr, DecidableEq

/-- A JSON-RPC frame after successful `JSON.parse`. -/
structure Request where
  id : Option RpcId
  method : String
  params : Params
  deriving Repr, DecidableEq

/-- Result payloads of the methods, as assembled by the handlers. -/
inductive RpcResult
  | pluginList (ps : List (String × List String))
  | agentList (as : List (String × String))
  | invokeView (sessionId claudeSessionId : String)
  | messageRes (r : Pty.MessageResult)
  | stopOk
  | sessionList (ids : List String)
  | sessionView (id : String)
  | subscribedRes (sessionId : String)
  | unsubscribedRes (sessionId : String)
  | projects (xs : List String)
  | projectSessions (xs : List String)
  | history (xs : List String)
  | deleteOk
  | deleteBulkRes (deleted failed : List String)
  | homeDir (s : String)
  deriving Repr, DecidableEq

/-- A frame written back on the socket by `sendResult`/`sendError`
(websocket.ts lines 554-579): both carry the `id` value they were given. -/
inductive Outgoing
  | result (id : Option RpcId) (r : RpcResult)
  | errorResp (id : Option RpcId) (code : Int) (msg : String)
  deriving Repr, DecidableEq

/-- The `id` field of an outgoing response frame. -/
def Outgoing.outId : Outgoing → Option RpcId
  | .result id _ => id
  | .errorResp id _ _ => id

/-- Outcomes of the blocking service calls the transport awaits; a `.error`
is a rejected promise, caught by `handleRequest`'s `catch`. -/
structure ServiceEnv where
  projects : Except String (List String)
  projectSessions : Except String (List String)
  history : Except String (List String)
  deleteOne : Except String Unit
  deleteBulk : Except String (List String × List String)
  homeDir : String
  deriving Repr

/-- `handlePluginList` (websocket.ts lines 310-326): plugin name paired with
its enabled agents' ids. -/
def handlePluginList (reg : Registry) : RpcResult :=
  .pluginList (reg.plugins.map (fun p =>
    (p.2.name, (p.2.agents.filter (·.enabled)).map (·.id))))

/-- `handleAgentList` (websocket.ts lines 331-340) over
`registry.getAgents()`: enabled agents with their plugin. -/
def handleAgentList (reg : Registry) : RpcResult :=
  .agentList ((reg.plugins.map (fun p =>
    (p.2.agents.filter (·.enabled)).map (fun a => (p.2.name, a.id)))).flatten)

/-- Convert a service-call outcome into the response `handleRequest` sends:
`sendResult` on success, `sendError` with `INTERNAL_ERROR` (−32603) in the
`catch`. -/
def respond (id : Option RpcId) (r : Except String RpcResult) : Outgoing :=
  match r with
  | .ok v => .result id v
  | .error e => .errorResp id (-32603) e

/-- `WebSocketNovaServer.handleRequest` (websocket.ts lines 201-305): the
`switch` on `method`.  Every branch sends exactly one frame: `sendResult(ws,
id, result)` on success, `sendError(ws, id, METHOD_NOT_FOUND, …)` for an
unknown method, and `sendError(ws, id, INTERNAL_ERROR, message)` in the
`catch` when a handler throws.  There is no special case for a frame without
an `id`.  The second component counts subprocesses spawned while handling
the request. -/
def handleRequest (reg : Registry) (senv : ServiceEnv) (ienv : InvokeEnv)
    (req : Request) : List Outgoing × Nat :=
  let id := req.id
  if req.method = "plugin.list" then ([.result id (handlePluginList reg)], 0)
  else if req.method = "agent.list" then ([.result id (handleAgentList reg)], 0)
  else if req.method = "agent.invoke" then
    match registryInvoke reg req.params.plugin req.params.agent req.params.prompt
        req.params.projectPath ienv with
    | (.ok s, n) => ([.result id (.invokeView s.id s.claudeSessionId)], n)
    | (.error e, n) => ([.errorResp id (-32603) e], n)
  else if req.method = "session.message" then
    ([.result id (.messageRes (registryMessage reg req.params.sessionId req.params.message))], 0)
  else if req.method = "session.stop" then ([.result id .stopOk], 0)
  else if req.method = "session.list" then
    ([.result id (.sessionList (reg.cliSessions.map (·.1)))], 0)
  else if req.method = "session.get" then
    match registryGetSession reg req.params.sessionId with
    | none =>
      ([.errorResp id (-32603) ("Session '" ++ req.params.sessionId ++ "' not found")], 0)
    | some st => ([.result id (.sessionView st.id)], 0)
  else if req.method = "session.subscribe" then
    ([.result id (.subscribedRes req.params.sessionId)], 0)
  else if req.method = "session.unsubscribe" then
    ([.result id (.unsubscribedRes req.params.sessionId)], 0)
  else if req.method = "project.list" then
    ([respond id ((senv.projects).map .projects)], 0)
  else if req.method = "project.sessions" then
    ([respond id ((senv.projectSessions).map .projectSessions)], 0)
  else if req.method = "session.history" then
    ([respond id ((senv.history).map .history)], 0)
  else if req.method = "session.delete" then
    ([respond id ((senv.deleteOne).map (fun _ => .deleteOk))], 0)
  else if req.method = "session.deleteBulk" then
    ([respond id ((senv.deleteBulk).map (fun r => .deleteBulkRes r.1 r.2))], 0)
  else if req.method = "system.homeDirectory" then
    ([.result id (.homeDir senv.homeDir)], 0)
  else ([.errorResp id (-32601) ("Method not found: " ++ req.method)], 0)

end Transport

/-! ## Session history service (`packages/mcp/src/server.ts`)

A project directory is embedded as the list of session ids whose `.jsonl`
file exists in it (the path `getSessionPath` builds is
`<projectsDir>/<projectId>/<sessionId>.jsonl`, injective in the session id
for a fixed project, so the file set is keyed by session id).  `unlink`
succeeds exactly when the file exists and removes it. -/

namespace Sessions

/-- `deleteSession(sessionId, projectId)` (server.ts lines 292-302): unlink
the session's file; a failing unlink is rethrown as
`Failed to delete session '…'`.  Returns the directory after the call. -/
def deleteSession (fs : List String) (sessionId : String) :
    Except String (List String) :=
  if sessionId ∈ fs then .ok (fs.erase sessionId)
  else .error ("Failed to delete session '" ++ sessionId ++ "'")

/-- `deleteSessions(sessionIds, projectId)` (server.ts lines 307-326): try
each id in order, collecting successes into `deleted` and failures into
`failed`; a failure never aborts the loop.  Returns `(deleted, failed)` and
the final directory contents. -/
def deleteSessions (fs : List String) : List String →
    (List String × List String) × List String
  | [] => (([], []), fs)
  | sessionId :: rest =>
    match deleteSession fs sessionId with
    | .ok fs' =>
      let r := deleteSessions fs' rest
      ((sessionId :: r.1.1, r.1.2), r.2)
    | .error _ =>
      let r := deleteSessions fs rest
      ((r.1.1, sessionId :: r.1.2), r.2)

end Sessions

/-! ## Plugin manifest validation and loader (`core/plugin-loader.ts`) -/

namespace Loader

/-- The JSON value found at an agent entry of `plugin.json`, before schema
validation: each field may be absent. -/
structure RawAgent where
  id : Option String
  name : Option String
  capabilities : Option (List String)
  description : Option String
  deriving Repr, DecidableEq

/-- The JSON value found in `plugin.json`, before schema validation. -/
structure RawManifest where
  name : Option String
  version : Option String
  type : Option String
  source : Option String
  supports : Option (List String)
  entry : Option String
  agents : Option (List RawAgent)
  deriving Repr, DecidableEq

/-- A validated agent declaration. -/
structure AgentDecl where
  id : String
  name : String
  capabilities : Option (List String)
  description : Option String
  deriving Repr, DecidableEq

/-- A validated plugin manifest (`PluginManifestSchema`'s output). -/
structure Manifest where
  name : String
  version : String
  type : String
  source : String
  supports : List String
  entry : String
  agents : List AgentDecl
  deriving Repr, DecidableEq

/-- `z.enum(['cli', 'api', 'adk', 'local', 'grpc'])`. -/
def validSource (s : String) : Bool :=
  ["cli", "api", "adk", "local", "grpc"].contains s

/-- `z.enum(['chat', 'tools', 'plan', 'code', 'realtime', 'vision'])`. -/
def validCapability (s : String) : Bool :=
  ["chat", "tools", "plan", "code", "realtime", "vision"].contains s

/-- The agent object schema inside `PluginManifestSchema` (plugin-loader.ts
lines 26-35): `id` and `name` required strings, `capabilities` an optional
array over the capability enum, `description` optional. -/
def validateAgent (a : RawAgent) : Option AgentDecl :=
  match a.id, a.name with
  | some id, some name =>
    match a.capabilities with
    | some caps =>
      if caps.all validCapability then some ⟨id, name, some caps, a.description⟩
      else none
    | none => some ⟨id, name, none, a.description⟩
  | _, _ => none

/-- `PluginManifestSchema.parse` (plugin-loader.ts lines 19-37), as used by
`loadManifest` (lines 176-192): requires every field, `type` the literal
`"llm"`, `source` from the source enum, `supports` over the capability enum,
and each agent valid.  There is no uniqueness constraint on agent ids. -/
def validateManifest (m : RawManifest) : Option Manifest :=
  match m.name, m.version, m.type, m.source, m.supports, m.entry, m.agents with
  | some name, some version, some type, some source, some supports, some entry,
    some rawAgents =>
    if type = "llm" ∧ validSource source = true ∧ supports.all validCapability = true then
      match rawAgents.mapM validateAgent with
      | some agents => some ⟨name, version, type, source, supports, entry, agents⟩
      | none => none
    else none
  | _, _, _, _, _, _, _ => none

/-- One directory under `<base>/plugins`, with the facts `loadPlugin`
consults: whether `plugin.json` exists, the outcome of reading/parsing it
(`none` when `readFileSync`/`JSON.parse` throws), and whether the entry
module resolves, exports a factory, and initializes. -/
structure DirEntry where
  hasManifestFile : Bool
  parsed : Option RawManifest
  entryExists : Bool
  factoryOk : Bool
  initOk : Bool
  deriving Repr, DecidableEq

/-- `PluginLoader.loadPlugin(dirName)` (plugin-loader.ts lines 108-171):
each failure logs and returns without registering; on success the plugin is
registered and its name recorded in `loadedPlugins`. -/
def loadPlugin (cfg : Config.NovaConfig) (d : DirEntry) : Option String :=
  if d.hasManifestFile = false then none
  else
    match d.parsed with
    | none => none
    | some raw =>
      match validateManifest raw with
      | none => none
      | some m =>
        if Config.isPluginEnabled cfg m.name = false then none
        else if d.entryExists = false then none
        else if d.factoryOk = false then none
        else if d.initOk = false then none
        else some m.name

/-- `PluginLoader.discover()` (plugin-loader.ts lines 78-103): load each
plugin directory in turn inside a `try`/`catch`, so one plugin's failure
never aborts the others; returns the loaded plugin names in order. -/
def discover (cfg : Config.NovaConfig) : List DirEntry → List String
  | [] => []
  | d :: rest =>
    match loadPlugin cfg d with
    | some name => name :: discover cfg rest
    | none => discover cfg rest

end Loader

/-! ## Project-path decoding (`services/projects.ts`, `resolveProjectPath`)

Paths and path segments are embedded as `List Char` so that the splitting
functions can be reasoned about by induction; a path is a list of segments
and `pathStr` renders it the way `path.join` builds `currentPath` (the
embedded segments never contain `'/'`).  The filesystem "containing exactly
P" is embedded as the list of P's segments: a directory exists iff it is a
prefix of that chain, and `readdir` returns its sole child (or no entries at
the leaf). -/

namespace Projects

/-- A JS string, embedded as its character list. -/
abbrev Str := List Char

/-- `s.split('-')` (single-character separator): always returns at least one
(possibly empty) piece. -/
def splitDash : Str → List Str
  | [] => [[]]
  | c :: rest =>
    if c = '-' then [] :: splitDash rest
    else
      match splitDash rest with
      | p :: ps => (c :: p) :: ps
      | [] => [[c]]

/-- `entry.replace(/_/g, '-')`. -/
def replaceUnderscore (s : Str) : Str :=
  s.map (fun c => if c = '_' then '-' else c)

/-- `s.toLowerCase()` (the inputs are ASCII). -/
def lowerStr (s : Str) : Str := s.map Char.toLower

/-- `dirName.split('-').filter(Boolean)` (projects.ts line 48). -/
def idParts (dirName : Str) : List Str :=
  (splitDash dirName).filter (fun p => !p.isEmpty)

/-- `entry.replace(/_/g, '-').split('-')` (projects.ts line 71) — note: no
`filter(Boolean)` here, unlike the id parts. -/
def entryParts (entry : Str) : List Str :=
  splitDash (replaceUnderscore entry)

/-- The per-entry match test (projects.ts lines 75-78): the entry's parts
must fit into the remaining parts and match them case-insensitively. -/
def matchesPrefix (entry : Str) (parts : List Str) : Bool :=
  decide ((entryParts entry).length ≤ parts.length) &&
    ((entryParts entry).zip (parts.take (entryParts entry).length)).all
      (fun pq => lowerStr pq.1 == lowerStr pq.2)

/-- One step of the best-match fold (projects.ts lines 79-85): keep the entry
consuming strictly more parts than the best so far (`maxConsumed` starts at
0). -/
def bestStep (parts : List Str) (acc : Option Str × Nat) (entry : Str) :
    Option Str × Nat :=
  if matchesPrefix entry parts = true ∧ acc.2 < (entryParts entry).length then
    (some entry, (entryParts entry).length)
  else acc

/-- The `for (const entry of entries)` loop (projects.ts lines 67-87):
returns `bestMatch` and `maxConsumed`. -/
def bestMatch (entries parts : List Str) : Option Str × Nat :=
  entries.foldl (bestStep parts) (none, 0)

/-- `readdir(currentPath)` against a filesystem containing exactly the path
whose segments are `fs`: a directory is a prefix of the chain; the sole
entry at depth `k` is segment `k` (no entries at the leaf); any other path
throws. -/
def readdir (fs cur : List Str) : Option (List Str) :=
  if cur = fs.take cur.length then
    some (if cur.length < fs.length then [fs.getD cur.length []] else [])
  else none

/-- The `while` loop of `resolveProjectPath` (projects.ts lines 59-108), with
`fuel = maxIterations − iterations` (`maxIterations = 100`): on a readdir
failure, join all remaining parts and break; on a best match, descend into
the entry and drop the consumed parts; otherwise fall back to joining the
next part verbatim. -/
def resolveLoop (fs : List Str) : Nat → List Str → List Str → List Str
  | _, cur, [] => cur
  | 0, cur, _ :: _ => cur
  | fuel + 1, cur, p0 :: prest =>
    match readdir fs cur with
    | none => cur ++ (p0 :: prest)
    | some entries =>
      match bestMatch entries (p0 :: prest) with
      | (some entry, k) => resolveLoop fs fuel (cur ++ [entry]) ((p0 :: prest).drop k)
      | (none, _) => resolveLoop fs fuel (cur ++ [p0]) prest

/-- Render a segment chain the way `path.join` builds `currentPath` from
`/`. -/
def joinSegs : List Str → Str
  | [] => []
  | [s] => s
  | s :: s' :: rest => s ++ '/' :: joinSegs (s' :: rest)

/-- The `currentPath` string for a chain of segments (starts at `/`). -/
def pathStr (segs : List Str) : Str := '/' :: joinSegs segs

/-- `resolveProjectPath(dirName)` (projects.ts lines 45-112): start at `/`
with the filtered dash-split parts and walk. -/
def resolveProjectPath (fs : List Str) (dirName : Str) : Str :=
  pathStr (resolveLoop fs 100 [] (idParts dirName))

/-- The encoding named by the claim: replace every `/` with `-`. -/
def encodePath (p : Str) : Str :=
  p.map (fun c => if c = '/' then '-' else c)

/-- The contribution of one segment to the filtered id parts. -/
def partsOfSeg (s : Str) : List Str :=
  (splitDash s).filter (fun p => !p.isEmpty)

/-- Characters the claim admits in segments: ASCII letters, digits,
underscore, dash. -/
def goodChar (c : Char) : Bool :=
  c.isAlphanum || c = '_' || c = '-'

/-- A segment for which the walk provably reconstructs the path: non-empty,
over the admissible alphabet, and not mixing `_` with `-` (nor containing
empty dash-pieces, i.e. leading/trailing/doubled dashes). -/
def goodSeg (s : Str) : Prop :=
  s ≠ [] ∧ (∀ c ∈ s, goodChar c = true) ∧
    ('-' ∉ s ∨ ('_' ∉ s ∧ [] ∉ splitDash s))

instance (s : Str) : Decidable (goodSeg s) := by
  unfold goodSeg
  infer_instance

end Projects

end Nova

/-! ## Helper lemmas about the PTY session step functions -/

namespace Nova.Pty

theorem mem_processLine_type {st : SessState} {l : ParsedLine} {e : Event}
    (h : e ∈ (processLine st l).2) : e.type = .output ∨ e.type = .init := by
  cases l with
  | raw s =>
    simp [processLine] at h
    simp [h]
  | json m =>
    unfold processLine handleMessage handleInit handleResult at h
    repeat' split at h
    all_goals simp_all [emitOutput]
    all_goals rcases h with rfl | rfl <;> simp

theorem processLine_fst_id (st : SessState) (l : ParsedLine) :
    (processLine st l).1.id = st.id := by
  cases l with
  | raw s => rfl
  | json m =>
    unfold processLine handleMessage handleInit handleResult
    repeat' split
    all_goals rfl

theorem mem_processLine_sessionId {st : SessState} {l : ParsedLine} {e : Event}
    (h : e ∈ (processLine st l).2) : e.sessionId = st.id := by
  cases l with
  | raw s =>
    simp [processLine] at h
    simp [h]
  | json m =>
    unfold processLine handleMessage handleInit handleResult at h
    repeat' split at h
    all_goals simp_all [emitOutput]
    all_goals rcases h with rfl | rfl <;> simp

theorem handleExit_fst_id (st : SessState) (ec : Int) :
    (handleExit st ec).1.id = st.id := rfl

theorem handleExit_snd (st : SessState) (ec : Int) :
    (handleExit st ec).2 =
      [{ sessionId := st.id, type := .complete,
         data := .completeData ec st.claudeSessionId }] := rfl

theorem start_failed_props {st : SessState} {inp : StartInput} {st' : SessState}
    {evs : List Event} (h : start st inp = .failed st' evs) :
    st'.id = st.id ∧ ∀ e ∈ evs, e.sessionId = st.id := by
  unfold start at h
  repeat' split at h
  all_goals cases h
  all_goals simp

theorem start_spawned_id {st : SessState} {inp : StartInput} {st1 : SessState}
    (h : start st inp = .spawned st1) : st1.id = st.id := by
  unfold start at h
  repeat' split at h
  all_goals cases h
  all_goals rfl

theorem runLines_fst_id (st : SessState) (lines : List ParsedLine) :
    (runLines st lines).1.id = st.id := by
  induction lines generalizing st with
  | nil => rfl
  | cons l ls ih =>
    simp only [runLines]
    rw [ih]
    exact processLine_fst_id st l

theorem mem_runLines_type {st : SessState} {lines : List ParsedLine} {e : Event}
    (h : e ∈ (runLines st lines).2) : e.type = .output ∨ e.type = .init := by
  induction lines generalizing st with
  | nil => simp [runLines] at h
  | cons l ls ih =>
    simp only [runLines, List.mem_append] at h
    rcases h with h | h
    · exact mem_processLine_type h
    · exact ih h

theorem mem_runLines_sessionId {st : SessState} {lines : List ParsedLine} {e : Event}
    (h : e ∈ (runLines st lines).2) : e.sessionId = st.id := by
  induction lines generalizing st with
  | nil => simp [runLines] at h
  | cons l ls ih =>
    simp only [runLines, List.mem_append] at h
    rcases h with h | h
    · exact mem_processLine_sessionId h
    · rw [ih h]
      exact processLine_fst_id st l

end Nova.Pty

/-! ## Helper lemmas about the project-path decoder -/

namespace Nova.Projects

theorem splitDash_cons_exists (s : Str) : ∃ p ps, splitDash s = p :: ps := by
  induction s with
  | nil => exact ⟨[], [], rfl⟩
  | cons c cs ih =>
    obtain ⟨p, ps, h⟩ := ih
    by_cases hc : c = '-'
    · subst hc
      exact ⟨[], splitDash cs, by simp [splitDash]⟩
    · exact ⟨c :: p, ps, by simp [splitDash, hc, h]⟩

theorem splitDash_append (x y : Str) :
    splitDash (x ++ '-' :: y) = splitDash x ++ splitDash y := by
  induction x with
  | nil => simp [splitDash]
  | cons c cs ih =>
    by_cases hc : c = '-'
    · subst hc
      simp [splitDash, ih]
    · obtain ⟨p, ps, h⟩ := splitDash_cons_exists cs
      simp [splitDash, hc, ih, h]

theorem splitDash_of_not_mem {s : Str} (h : '-' ∉ s) : splitDash s = [s] := by
  induction s with
  | nil => rfl
  | cons c cs ih =>
    have hc : c ≠ '-' := fun hh => h (hh ▸ List.mem_cons_self c cs)
    have hcs : '-' ∉ cs := fun hh => h (List.mem_cons_of_mem c hh)
    simp [splitDash, hc, ih hcs]

theorem splitDash_head_lt {t : Str} (h : '-' ∈ t) :
    ∃ p0 ps, splitDash t = p0 :: ps ∧ p0.length < t.length := by
  induction t with
  | nil => cases h
  | cons c cs ih =>
    by_cases hc : c = '-'
    · subst hc
      exact ⟨[], splitDash cs, by simp [splitDash]⟩
    · have hcs : '-' ∈ cs := by
        rcases List.mem_cons.mp h with h' | h'
        · exact absurd h'.symm hc
        · exact h'
      obtain ⟨p0, ps, heq, hlt⟩ := ih hcs
      refine ⟨c :: p0, ps, by simp [splitDash, hc, heq], by simpa using Nat.succ_lt_succ hlt⟩

theorem encodePath_append (a b : Str) :
    encodePath (a ++ b) = encodePath a ++ encodePath b :=
  List.map_append _ a b

theorem encodePath_of_no_slash {s : Str} (h : ∀ c ∈ s, c ≠ '/') :
    encodePath s = s := by
  unfold encodePath
  have h2 : ∀ c ∈ s, (if c = '/' then '-' else c) = c := by
    intro c hc
    simp [h c hc]
  rw [List.map_congr_left h2]
  exact List.map_id s

theorem replaceUnderscore_of_not_mem {s : Str} (h : '_' ∉ s) :
    replaceUnderscore s = s := by
  unfold replaceUnderscore
  have h2 : ∀ c ∈ s, (if c = '_' then '-' else c) = c := by
    intro c hc
    have hc2 : c ≠ '_' := by
      intro hch
      subst hch
      exact h hc
    simp [hc2]
  rw [List.map_congr_left h2]
  exact List.map_id s

theorem dash_mem_replaceUnderscore {s : Str} (h : '_' ∈ s) :
    '-' ∈ replaceUnderscore s := by
  unfold replaceUnderscore
  exact List.mem_map.mpr ⟨'_', h, by simp⟩

theorem length_replaceUnderscore (s : Str) :
    (replaceUnderscore s).length = s.length :=
  List.length_map s _

theorem partsOfSeg_of_no_dash {s : Str} (hnd : '-' ∉ s) (hne : s ≠ []) :
    partsOfSeg s = [s] := by
  unfold partsOfSeg
  rw [splitDash_of_not_mem hnd]
  simp [hne]

theorem partsOfSeg_of_no_empty {s : Str} (hne : [] ∉ splitDash s) :
    partsOfSeg s = splitDash s := by
  unfold partsOfSeg
  refine List.filter_eq_self.mpr (fun p hp => ?_)
  have : p ≠ [] := fun h => hne (h ▸ hp)
  simpa using this

theorem filter_splitDash_encode_joinSegs :
    ∀ segs : List Str, (∀ s ∈ segs, ∀ c ∈ s, c ≠ '/') →
      (splitDash (encodePath (joinSegs segs))).filter (fun p => !p.isEmpty) =
        segs.flatMap partsOfSeg
  | [], _ => by simp [joinSegs, encodePath, splitDash]
  | [s], h => by
    simp only [joinSegs]
    rw [encodePath_of_no_slash (h s (by simp))]
    simp [partsOfSeg]
  | s :: s' :: r, h => by
    simp only [joinSegs]
    have hsplit : s ++ '/' :: joinSegs (s' :: r) = s ++ ('/' :: joinSegs (s' :: r)) := rfl
    rw [hsplit, encodePath_append, encodePath_of_no_slash (h s (by simp))]
    have henc : encodePath ('/' :: joinSegs (s' :: r)) =
        '-' :: encodePath (joinSegs (s' :: r)) := by
      simp [encodePath]
    rw [henc, splitDash_append, List.filter_append]
    rw [filter_splitDash_encode_joinSegs (s' :: r)
      (fun t ht => h t (List.mem_cons_of_mem s ht))]
    simp [partsOfSeg]

theorem idParts_encode_pathStr (segs : List Str)
    (h : ∀ s ∈ segs, ∀ c ∈ s, c ≠ '/') :
    idParts (encodePath (pathStr segs)) = segs.flatMap partsOfSeg := by
  unfold idParts pathStr
  have henc : encodePath ('/' :: joinSegs segs) = '-' :: encodePath (joinSegs segs) := by
    simp [encodePath]
  rw [henc]
  have h2 : splitDash ('-' :: encodePath (joinSegs segs)) =
      [] :: splitDash (encodePath (joinSegs segs)) := by
    simp [splitDash]
  rw [h2, List.filter_cons]
  simpa using filter_splitDash_encode_joinSegs segs h

theorem all_zip_self_lower (l : List Str) :
    ((l.zip l).all (fun pq => lowerStr pq.1 == lowerStr pq.2)) = true := by
  induction l with
  | nil => rfl
  | cons a l ih =>
    simp only [List.zip_cons_cons, List.all_cons, Bool.and_eq_true]
    exact ⟨by simp, ih⟩

theorem matchesPrefix_self {s : Str} (hnu : '_' ∉ s) (tail : List Str) :
    matchesPrefix s (splitDash s ++ tail) = true := by
  unfold matchesPrefix entryParts
  rw [replaceUnderscore_of_not_mem hnu]
  rw [List.take_left]
  simp [all_zip_self_lower]

theorem matchesPrefix_false_of_underscore {s : Str} (hu : '_' ∈ s)
    (tail : List Str) : matchesPrefix s (s :: tail) = false := by
  obtain ⟨p0, ps, heq, hlt⟩ := splitDash_head_lt (dash_mem_replaceUnderscore hu)
  rw [length_replaceUnderscore] at hlt
  unfold matchesPrefix entryParts
  rw [heq]
  by_cases hlen : (p0 :: ps).length ≤ (s :: tail).length
  · have hne : (lowerStr p0 == lowerStr s) = false := by
      rw [beq_eq_false_iff_ne]
      intro hq
      have hq2 := congrArg List.length hq
      simp only [lowerStr, List.length_map] at hq2
      omega
    simp [hlen, List.take_succ_cons, hne]
  · have hlen' : ¬ps.length ≤ tail.length := by simpa using hlen
    simp [hlen']

theorem bestMatch_singleton_true {e : Str} {parts : List Str}
    (h : matchesPrefix e parts = true) :
    bestMatch [e] parts = (some e, (entryParts e).length) := by
  obtain ⟨p, ps, hp⟩ := splitDash_cons_exists (replaceUnderscore e)
  simp [bestMatch, bestStep, h, entryParts, hp]

theorem bestMatch_singleton_false {e : Str} {parts : List Str}
    (h : matchesPrefix e parts = false) :
    bestMatch [e] parts = (none, 0) := by
  simp [bestMatch, bestStep, h]

theorem getD_append_cons (pre : List Str) (s : Str) (rest : List Str) :
    (pre ++ s :: rest).getD pre.length [] = s := by
  induction pre with
  | nil => rfl
  | cons a pre ih => simpa [List.getD] using ih

theorem readdir_at (pre : List Str) (s : Str) (rest : List Str) :
    readdir (pre ++ s :: rest) pre = some [s] := by
  unfold readdir
  have h1 : pre = (pre ++ s :: rest).take pre.length := (List.take_left pre _).symm
  have h2 : pre.length < (pre ++ s :: rest).length := by simp
  rw [if_pos h1, if_pos h2, getD_append_cons]

theorem resolveLoop_step (fs : List Str) (fuel : Nat) (cur : List Str)
    (p0 : Str) (prest : List Str) :
    resolveLoop fs (fuel + 1) cur (p0 :: prest) =
      match readdir fs cur with
      | none => cur ++ (p0 :: prest)
      | some entries =>
        match bestMatch entries (p0 :: prest) with
        | (some entry, k) => resolveLoop fs fuel (cur ++ [entry]) ((p0 :: prest).drop k)
        | (none, _) => resolveLoop fs fuel (cur ++ [p0]) prest := rfl

theorem resolveLoop_step_found (fs : List Str) (fuel : Nat) (cur : List Str)
    (p0 : Str) (prest entries : List Str) (entry : Str) (k : Nat)
    (hr : readdir fs cur = some entries)
    (hb : bestMatch entries (p0 :: prest) = (some entry, k)) :
    resolveLoop fs (fuel + 1) cur (p0 :: prest) =
      resolveLoop fs fuel (cur ++ [entry]) ((p0 :: prest).drop k) := by
  rw [resolveLoop_step, hr]
  show (match bestMatch entries (p0 :: prest) with
    | (some entry, k) => resolveLoop fs fuel (cur ++ [entry]) ((p0 :: prest).drop k)
    | (none, _) => resolveLoop fs fuel (cur ++ [p0]) prest) = _
  rw [hb]

theorem resolveLoop_step_fallback (fs : List Str) (fuel : Nat) (cur : List Str)
    (p0 : Str) (prest entries : List Str) (n : Nat)
    (hr : readdir fs cur = some entries)
    (hb : bestMatch entries (p0 :: prest) = (none, n)) :
    resolveLoop fs (fuel + 1) cur (p0 :: prest) =
      resolveLoop fs fuel (cur ++ [p0]) prest := by
  rw [resolveLoop_step, hr]
  show (match bestMatch entries (p0 :: prest) with
    | (some entry, k) => resolveLoop fs fuel (cur ++ [entry]) ((p0 :: prest).drop k)
    | (none, _) => resolveLoop fs fuel (cur ++ [p0]) prest) = _
  rw [hb]

theorem resolveLoop_ok :
    ∀ (rest pre : List Str) (fuel : Nat),
      (∀ s ∈ rest, goodSeg s) → rest.length ≤ fuel →
      resolveLoop (pre ++ rest) fuel pre (rest.flatMap partsOfSeg) = pre ++ rest
  | [], pre, fuel, _, _ => by simp [resolveLoop]
  | s :: rest', pre, fuel, hgood, hfuel => by
    obtain ⟨hne, _hchars, hdisj⟩ := hgood s (List.mem_cons_self s rest')
    cases fuel with
    | zero => simp at hfuel
    | succ f =>
      have hfuel' : rest'.length ≤ f := by
        simp only [List.length_cons] at hfuel
        omega
      have hgood' : ∀ t ∈ rest', goodSeg t := fun t ht => hgood t (List.mem_cons_of_mem s ht)
      have hassoc : pre ++ s :: rest' = (pre ++ [s]) ++ rest' := by simp
      have ihstep := resolveLoop_ok rest' (pre ++ [s]) f hgood' hfuel'
      rw [hassoc]
      have hread : readdir ((pre ++ [s]) ++ rest') pre = some [s] := by
        have : (pre ++ [s]) ++ rest' = pre ++ s :: rest' := by simp
        rw [this]
        exact readdir_at pre s rest'
      have hmain : '_' ∉ s → [] ∉ splitDash s →
          resolveLoop ((pre ++ [s]) ++ rest') (f + 1) pre
            ((s :: rest').flatMap partsOfSeg) = (pre ++ [s]) ++ rest' := by
        intro hnu hnoempty
        have hpos : partsOfSeg s = splitDash s := partsOfSeg_of_no_empty hnoempty
        obtain ⟨p0, ps, hsd⟩ := splitDash_cons_exists s
        have hmatch : matchesPrefix s (splitDash s ++ rest'.flatMap partsOfSeg) = true :=
          matchesPrefix_self hnu _
        have hep : (entryParts s).length = (splitDash s).length := by
          unfold entryParts
          rw [replaceUnderscore_of_not_mem hnu]
        have hbest := bestMatch_singleton_true hmatch
        rw [hep] at hbest
        have hparts : (s :: rest').flatMap partsOfSeg =
            p0 :: (ps ++ rest'.flatMap partsOfSeg) := by
          simp [hpos, hsd]
        have hbest' : bestMatch [s] (p0 :: (ps ++ rest'.flatMap partsOfSeg)) =
            (some s, (splitDash s).length) := by
          rw [← List.cons_append, ← hsd]
          exact hbest
        rw [hparts, resolveLoop_step_found _ _ _ _ _ _ _ _ hread hbest']
        have hdrop : (p0 :: (ps ++ rest'.flatMap partsOfSeg)).drop (splitDash s).length =
            rest'.flatMap partsOfSeg := by
          rw [← List.cons_append, ← hsd]
          exact List.drop_left _ _
        rw [hdrop]
        exact ihstep
      rcases hdisj with hnd | ⟨hnu, hnoempty⟩
      · by_cases hu : '_' ∈ s
        · -- the entry does not match (its pieces are shorter); fallback path
          have hpos : partsOfSeg s = [s] := partsOfSeg_of_no_dash hnd hne
          have hparts : (s :: rest').flatMap partsOfSeg =
              s :: rest'.flatMap partsOfSeg := by
            simp [hpos]
          have hmatch : matchesPrefix s (s :: rest'.flatMap partsOfSeg) = false :=
            matchesPrefix_false_of_underscore hu _
          have hbest := bestMatch_singleton_false hmatch
          rw [hparts, resolveLoop_step_fallback _ _ _ _ _ _ _ hread hbest]
          exact ihstep
        · refine hmain hu ?_
          rw [splitDash_of_not_mem hnd]
          simpa using hne
      · exact hmain hnu hnoempty

end Nova.Projects

/-! ## Helper lemmas about the bulk session delete -/

namespace Nova.Sessions

theorem mem_deleteSessions_deleted :
    ∀ (ids fs : List String), ids.Nodup → ∀ x : String,
      (x ∈ (deleteSessions fs ids).1.1 ↔ x ∈ ids ∧ x ∈ fs)
  | [], fs, _, x => by simp [deleteSessions]
  | a :: rest, fs, hids, x => by
    obtain ⟨ha, hrest⟩ := List.nodup_cons.mp hids
    by_cases hafs : a ∈ fs
    · have hstep : deleteSessions fs (a :: rest) =
          ((a :: (deleteSessions (fs.erase a) rest).1.1,
            (deleteSessions (fs.erase a) rest).1.2),
           (deleteSessions (fs.erase a) rest).2) := by
        simp [deleteSessions, deleteSession, hafs]
      rw [hstep]
      simp only [List.mem_cons]
      rw [mem_deleteSessions_deleted rest (fs.erase a) hrest x]
      constructor
      · rintro (rfl | ⟨hxr, hxe⟩)
        · exact ⟨Or.inl rfl, hafs⟩
        · exact ⟨Or.inr hxr, List.mem_of_mem_erase hxe⟩
      · rintro ⟨rfl | hxr, hxfs⟩
        · exact Or.inl rfl
        · by_cases hxa : x = a
          · subst hxa
            exact absurd hxr ha
          · exact Or.inr ⟨hxr, (List.mem_erase_of_ne hxa).mpr hxfs⟩
    · have hstep : deleteSessions fs (a :: rest) =
          (((deleteSessions fs rest).1.1, a :: (deleteSessions fs rest).1.2),
           (deleteSessions fs rest).2) := by
        simp [deleteSessions, deleteSession, hafs]
      rw [hstep]
      simp only [List.mem_cons]
      rw [mem_deleteSessions_deleted rest fs hrest x]
      constructor
      · rintro ⟨hxr, hxfs⟩
        exact ⟨Or.inr hxr, hxfs⟩
      · rintro ⟨rfl | hxr, hxfs⟩
        · exact absurd hxfs hafs
        · exact ⟨hxr, hxfs⟩

theorem mem_deleteSessions_failed :
    ∀ (ids fs : List String), ids.Nodup → ∀ x : String,
      (x ∈ (deleteSessions fs ids).1.2 ↔ x ∈ ids ∧ x ∉ fs)
  | [], fs, _, x => by simp [deleteSessions]
  | a :: rest, fs, hids, x => by
    obtain ⟨ha, hrest⟩ := List.nodup_cons.mp hids
    by_cases hafs : a ∈ fs
    · have hstep : deleteSessions fs (a :: rest) =
          ((a :: (deleteSessions (fs.erase a) rest).1.1,
            (deleteSessions (fs.erase a) rest).1.2),
           (deleteSessions (fs.erase a) rest).2) := by
        simp [deleteSessions, deleteSession, hafs]
      rw [hstep]
      simp only [List.mem_cons]
      rw [mem_deleteSessions_failed rest (fs.erase a) hrest x]
      constructor
      · rintro ⟨hxr, hxe⟩
        refine ⟨Or.inr hxr, fun hxfs => ?_⟩
        by_cases hxa : x = a
        · subst hxa
          exact absurd hxr ha
        · exact hxe ((List.mem_erase_of_ne hxa).mpr hxfs)
      · rintro ⟨rfl | hxr, hxfs⟩
        · exact absurd hafs hxfs
        · exact ⟨hxr, fun hxe => hxfs (List.mem_of_mem_erase hxe)⟩
    · have hstep : deleteSessions fs (a :: rest) =
          (((deleteSessions fs rest).1.1, a :: (deleteSessions fs rest).1.2),
           (deleteSessions fs rest).2) := by
        simp [deleteSessions, deleteSession, hafs]
      rw [hstep]
      simp only [List.mem_cons]
      rw [mem_deleteSessions_failed rest fs hrest x]
      constructor
      · rintro (rfl | ⟨hxr, hxfs⟩)
        · exact ⟨Or.inl rfl, hafs⟩
        · exact ⟨Or.inr hxr, hxfs⟩
      · rintro ⟨rfl | hxr, hxfs⟩
        · exact Or.inl rfl
        · exact Or.inr ⟨hxr, hxfs⟩

theorem mem_deleteSessions_final :
    ∀ (ids fs : List String), ids.Nodup → fs.Nodup → ∀ x : String,
      (x ∈ (deleteSessions fs ids).2 ↔ x ∈ fs ∧ x ∉ (deleteSessions fs ids).1.1)
  | [], fs, _, _, x => by simp [deleteSessions]
  | a :: rest, fs, hids, hfs, x => by
    obtain ⟨ha, hrest⟩ := List.nodup_cons.mp hids
    by_cases hafs : a ∈ fs
    · have hstep : deleteSessions fs (a :: rest) =
          ((a :: (deleteSessions (fs.erase a) rest).1.1,
            (deleteSessions (fs.erase a) rest).1.2),
           (deleteSessions (fs.erase a) rest).2) := by
        simp [deleteSessions, deleteSession, hafs]
      rw [hstep]
      simp only [List.mem_cons]
      rw [mem_deleteSessions_final rest (fs.erase a) hrest (hfs.erase a) x]
      constructor
      · rintro ⟨hxe, hnd⟩
        have hxa : x ≠ a := (hfs.mem_erase_iff.mp hxe).1
        exact ⟨List.mem_of_mem_erase hxe, fun h => h.elim (fun h' => hxa h') hnd⟩
      · rintro ⟨hxfs, hnd⟩
        have hxa : x ≠ a := fun h => hnd (Or.inl h)
        exact ⟨(List.mem_erase_of_ne hxa).mpr hxfs, fun h => hnd (Or.inr h)⟩
    · have hstep : deleteSessions fs (a :: rest) =
          (((deleteSessions fs rest).1.1, a :: (deleteSessions fs rest).1.2),
           (deleteSessions fs rest).2) := by
        simp [deleteSessions, deleteSession, hafs]
      rw [hstep]
      exact mem_deleteSessions_final rest fs hrest hfs x

end Nova.Sessions

/-! ## Helper lemmas about the transport -/

namespace Nova.Transport

theorem outId_respond (id : Option RpcId) (r : Except String RpcResult) :
    (respond id r).outId = id := by
  cases r <;> rfl

end Nova.Transport

/-! ## Theorems -/

namespace Nova

/-- C9: `isAgentEnabled(plugin, agent)` returns false when the plugin's config
entry has `enabled:false`; returns true when the plugin is unlisted in the
config, or listed and enabled with no `agents` mapping, or listed and enabled
with the agent unlisted in the mapping; and otherwise returns the boolean
listed for that agent. -/
theorem C9_isAgentEnabled_cases (cfg : Config.NovaConfig) (pluginName agentId : String) :
    (∀ pc, Config.lookupPlugin cfg pluginName = some pc → pc.enabled = false →
      Config.isAgentEnabled cfg pluginName agentId = false) ∧
    (Config.lookupPlugin cfg pluginName = none →
      Config.isAgentEnabled cfg pluginName agentId = true) ∧
    (∀ pc, Config.lookupPlugin cfg pluginName = some pc → pc.enabled = true →
      pc.agents = none →
      Config.isAgentEnabled cfg pluginName agentId = true) ∧
    (∀ pc agents, Config.lookupPlugin cfg pluginName = some pc → pc.enabled = true →
      pc.agents = some agents → Config.lookupAgent agents agentId = none →
      Config.isAgentEnabled cfg pluginName agentId = true) ∧
    (∀ pc agents b, Config.lookupPlugin cfg pluginName = some pc → pc.enabled = true →
      pc.agents = some agents → Config.lookupAgent agents agentId = some b →
      Config.isAgentEnabled cfg pluginName agentId = b) := by
  refine ⟨?_, ?_, ?_, ?_, ?_⟩
  · intro pc hpc hdis
    simp [Config.isAgentEnabled, hpc, hdis]
  · intro hnone
    simp [Config.isAgentEnabled, hnone]
  · intro pc hpc hen hag
    simp [Config.isAgentEnabled, hpc, hen, hag]
  · intro pc agents hpc hen hag hno
    simp [Config.isAgentEnabled, hpc, hen, hag, hno]
  · intro pc agents b hpc hen hag hb
    simp [Config.isAgentEnabled, hpc, hen, hag, hb]

/-- C1, as stated, is false: on the failure paths of `start()` the first (and
only) event delivered is `error`, not `init`.  Concretely, a session started
with an empty initial prompt delivers exactly one event, of type `error`. -/
theorem C1_event_order_counterexample :
    ((Pty.runSession (Pty.mkSession "session-1" "/tmp/x" "")
        ⟨"", true, true, true⟩ [] 0).2.map Pty.Event.type = [Pty.EvType.error]) ∧
    Pty.EvType.error ≠ Pty.EvType.init := by
  exact ⟨rfl, by decide⟩

/-- C1 (amended): on the failure paths of `start()` (empty prompt, or missing
project path with the heuristic substitute also missing) the session delivers
exactly one `error` event — no `init`, no `complete`.  In every execution in
which the subprocess is spawned, `complete` is delivered exactly once and is
the last event (so nothing follows it); and the first event is `init`
whenever the first complete line the subprocess emits is the `system`/`init`
record. -/
theorem C1_event_order_amended (st : Pty.SessState) (inp : Pty.StartInput)
    (lines : List Pty.ParsedLine) (ec : Int) :
    (inp.prompt = "" →
      (Pty.runSession st inp lines ec).2 =
        [{ sessionId := st.id, type := .error,
           data := .err "Initial prompt is required for hybrid mode" }]) ∧
    (inp.prompt ≠ "" → inp.binaryFound = true → inp.pathExists = false →
      inp.fixedPathExists = false →
      (Pty.runSession st inp lines ec).2 =
        [{ sessionId := st.id, type := .error,
           data := .err ("Project path does not exist: " ++ st.projectPath) }]) ∧
    (inp.prompt ≠ "" → inp.binaryFound = true →
      (inp.pathExists = true ∨ inp.fixedPathExists = true) →
      ∃ pre lastE, (Pty.runSession st inp lines ec).2 = pre ++ [lastE] ∧
        lastE.type = .complete ∧ ∀ e ∈ pre, e.type ≠ .complete) ∧
    (∀ m rest, lines = .json m :: rest → m.type = "system" → m.subtype = "init" →
      inp.prompt ≠ "" → inp.binaryFound = true →
      (inp.pathExists = true ∨ inp.fixedPathExists = true) →
      ((Pty.runSession st inp lines ec).2.head?.map Pty.Event.type) = some .init) := by
  refine ⟨?_, ?_, ?_, ?_⟩
  · intro h
    simp [Pty.runSession, Pty.start, h]
  · intro h1 h2 h3 h4
    simp [Pty.runSession, Pty.start, h1, h2, h3, h4]
  · intro h1 h2 h3
    have hs : Pty.start st inp =
        .spawned { st with state := .processing, messageCount := st.messageCount + 1 } := by
      unfold Pty.start
      rcases h3 with h3 | h3 <;> simp [h1, h2, h3]
    unfold Pty.runSession
    rw [hs]
    refine ⟨_, _, rfl, rfl, ?_⟩
    intro e he
    rcases Pty.mem_runLines_type he with h | h <;> simp [h]
  · intro m rest hlines hm1 hm2 h1 h2 h3
    have hs : Pty.start st inp =
        .spawned { st with state := .processing, messageCount := st.messageCount + 1 } := by
      unfold Pty.start
      rcases h3 with h3 | h3 <;> simp [h1, h2, h3]
    subst hlines
    unfold Pty.runSession
    rw [hs]
    simp only [Pty.runLines, Pty.processLine, Pty.handleMessage, hm1, hm2, Pty.handleInit]
    split <;> simp_all

/-- Witness for C1 (amended): a concrete spawned execution (prompt `"hello"`,
existing path, an init line followed by a result line, exit code 0) has
`complete` exactly once and last, and `init` first; and the parts'
hypotheses hold there. -/
theorem C1_event_order_amended_witness :
    (∃ pre lastE,
      (Pty.runSession (Pty.mkSession "session-1" "/tmp/x" "") ⟨"hello", true, true, false⟩
        [.json ⟨"system", "init", "U-1", false⟩, .json ⟨"result", "success", "U-1", false⟩]
        0).2 = pre ++ [lastE] ∧
      lastE.type = .complete ∧ ∀ e ∈ pre, e.type ≠ .complete) ∧
    ((Pty.runSession (Pty.mkSession "session-1" "/tmp/x" "") ⟨"hello", true, true, false⟩
        [.json ⟨"system", "init", "U-1", false⟩, .json ⟨"result", "success", "U-1", false⟩]
        0).2.head?.map Pty.Event.type = some .init) := by
  have h := C1_event_order_amended (Pty.mkSession "session-1" "/tmp/x" "")
    ⟨"hello", true, true, false⟩
    [.json ⟨"system", "init", "U-1", false⟩, .json ⟨"result", "success", "U-1", false⟩] 0
  exact ⟨h.2.2.1 (by decide) rfl (Or.inl rfl),
         h.2.2.2 ⟨"system", "init", "U-1", false⟩ [.json ⟨"result", "success", "U-1", false⟩]
           rfl rfl rfl (by decide) rfl (Or.inl rfl)⟩

/-- C2, as stated, is false: `handleInit` overwrites a previously captured
`claudeSessionId` unconditionally.  Concretely, after an init record with
`session_id = "U-A"` is processed, processing a second init record with
`session_id = "U-B"` replaces the captured id, and the `complete` event then
carries `"U-B"`, not `"U-A"`. -/
theorem C2_upstream_id_counterexample :
    ((Pty.processLine (Pty.mkSession "session-1" "/tmp/x" "")
        (.json ⟨"system", "init", "U-A", false⟩)).1.claudeSessionId = "U-A") ∧
    ((Pty.processLine
        (Pty.processLine (Pty.mkSession "session-1" "/tmp/x" "")
          (.json ⟨"system", "init", "U-A", false⟩)).1
        (.json ⟨"system", "init", "U-B", false⟩)).1.claudeSessionId = "U-B") ∧
    ((Pty.handleExit
        (Pty.processLine
          (Pty.processLine (Pty.mkSession "session-1" "/tmp/x" "")
            (.json ⟨"system", "init", "U-A", false⟩)).1
          (.json ⟨"system", "init", "U-B", false⟩)).1 0).2.map Pty.Event.data =
      [.completeData 0 "U-B"]) ∧
    ("U-B" : String) ≠ "U-A" := by
  refine ⟨rfl, rfl, rfl, by decide⟩

/-- C2 (amended): once `claudeSessionId` is non-empty, `handleResult` never
changes it, and neither does processing any line other than a `system`/`init`
record with a truthy `session_id`; processing such an init record sets
`claudeSessionId` to that record's id (overwriting any earlier capture); and
the `complete` event always carries the `claudeSessionId` current at
emission. -/
theorem C2_upstream_id_amended (st : Pty.SessState) (l : Pty.ParsedLine)
    (m : Pty.CMsg) (ec : Int) :
    (st.claudeSessionId ≠ "" →
      (Pty.handleResult st m).1.claudeSessionId = st.claudeSessionId) ∧
    (st.claudeSessionId ≠ "" →
      (∀ m', l = .json m' →
        ¬(m'.type = "system" ∧ m'.subtype = "init" ∧ m'.sessionId ≠ "")) →
      (Pty.processLine st l).1.claudeSessionId = st.claudeSessionId) ∧
    (m.type = "system" → m.subtype = "init" → m.sessionId ≠ "" →
      (Pty.processLine st (.json m)).1.claudeSessionId = m.sessionId) ∧
    ((Pty.handleExit st ec).2 =
      [{ sessionId := st.id, type := .complete,
         data := .completeData ec st.claudeSessionId }]) := by
  refine ⟨?_, ?_, ?_, rfl⟩
  · intro h
    unfold Pty.handleResult
    split
    · rename_i hc
      exact absurd hc.2 h
    · rfl
  · intro h hnotinit
    cases l with
    | raw s => rfl
    | json m' =>
      have hni := hnotinit m' rfl
      unfold Pty.processLine Pty.handleMessage Pty.handleInit Pty.handleResult
      repeat' split
      all_goals simp_all
  · intro h1 h2 h3
    simp [Pty.processLine, Pty.handleMessage, h1, h2, Pty.handleInit, h3]

/-- Witness for C2 (amended), at a session whose `claudeSessionId` is already
`"U-A"`, a raw line, and the init record `⟨system, init, U-B⟩`. -/
theorem C2_upstream_id_amended_witness :
    ((Pty.handleResult (Pty.mkSession "session-1" "/tmp/x" "U-A")
        ⟨"system", "init", "U-B", false⟩).1.claudeSessionId = "U-A") ∧
    ((Pty.processLine (Pty.mkSession "session-1" "/tmp/x" "U-A")
        (.raw "hello")).1.claudeSessionId = "U-A") ∧
    ((Pty.processLine (Pty.mkSession "session-1" "/tmp/x" "U-A")
        (.json ⟨"system", "init", "U-B", false⟩)).1.claudeSessionId = "U-B") := by
  have h := C2_upstream_id_amended (Pty.mkSession "session-1" "/tmp/x" "U-A")
    (.raw "hello") ⟨"system", "init", "U-B", false⟩ 0
  exact ⟨h.1 (by decide),
         h.2.1 (by decide) (by intro m' hm'; cases hm'),
         h.2.2.1 rfl rfl (by decide)⟩

/-- C3, as stated, is false in its notification half: `handleRequest` has no
special case for a frame without an `id`, so a well-formed notification still
gets a response (with `id` absent).  Concretely, a `plugin.list` frame with
no `id` produces one outgoing response frame. -/
theorem C3_response_framing_counterexample :
    (Transport.handleRequest ⟨[], [], []⟩
        ⟨.ok [], .ok [], .ok [], .ok (), .ok ([], []), "/home/u"⟩
        ⟨"session-1", true, true, false⟩
        ⟨none, "plugin.list", ⟨"", "", "", "", "", "", "", []⟩⟩).1 =
      [.result none (.pluginList [])] ∧
    [Transport.Outgoing.result none (.pluginList [])] ≠ ([] : List Transport.Outgoing) := by
  exact ⟨rfl, by simp⟩

/-- C3 (amended): for every parsed JSON-RPC frame — with or without an `id` —
`handleRequest` sends back exactly one response frame, and that frame carries
the request's `id` field verbatim (so a frame with an `id` gets exactly one
response with that `id`, and a notification also gets exactly one response,
with no `id`). -/
theorem C3_response_framing_amended (reg : Transport.Registry)
    (senv : Transport.ServiceEnv) (ienv : Transport.InvokeEnv)
    (req : Transport.Request) :
    (Transport.handleRequest reg senv ienv req).1.length = 1 ∧
    ∀ o ∈ (Transport.handleRequest reg senv ienv req).1, o.outId = req.id := by
  unfold Transport.handleRequest
  by_cases h1 : req.method = "plugin.list"
  · simp [h1, Transport.Outgoing.outId]
  rw [if_neg h1]
  by_cases h2 : req.method = "agent.list"
  · simp [h2, Transport.Outgoing.outId]
  rw [if_neg h2]
  by_cases h3 : req.method = "agent.invoke"
  · rw [if_pos h3]
    rcases hr : Transport.registryInvoke reg req.params.plugin req.params.agent
      req.params.prompt req.params.projectPath ienv with ⟨r, n⟩
    cases r <;> simp [Transport.Outgoing.outId]
  rw [if_neg h3]
  by_cases h4 : req.method = "session.message"
  · simp [h4, Transport.Outgoing.outId]
  rw [if_neg h4]
  by_cases h5 : req.method = "session.stop"
  · simp [h5, Transport.Outgoing.outId]
  rw [if_neg h5]
  by_cases h6 : req.method = "session.list"
  · simp [h6, Transport.Outgoing.outId]
  rw [if_neg h6]
  by_cases h7 : req.method = "session.get"
  · rw [if_pos h7]
    cases hg : Transport.registryGetSession reg req.params.sessionId <;>
      simp [Transport.Outgoing.outId]
  rw [if_neg h7]
  by_cases h8 : req.method = "session.subscribe"
  · simp [h8, Transport.Outgoing.outId]
  rw [if_neg h8]
  by_cases h9 : req.method = "session.unsubscribe"
  · simp [h9, Transport.Outgoing.outId]
  rw [if_neg h9]
  by_cases h10 : req.method = "project.list"
  · simp [h10, Transport.outId_respond]
  rw [if_neg h10]
  by_cases h11 : req.method = "project.sessions"
  · simp [h11, Transport.outId_respond]
  rw [if_neg h11]
  by_cases h12 : req.method = "session.history"
  · simp [h12, Transport.outId_respond]
  rw [if_neg h12]
  by_cases h13 : req.method = "session.delete"
  · simp [h13, Transport.outId_respond]
  rw [if_neg h13]
  by_cases h14 : req.method = "session.deleteBulk"
  · simp [h14, Transport.outId_respond]
  rw [if_neg h14]
  by_cases h15 : req.method = "system.homeDirectory"
  · simp [h15, Transport.Outgoing.outId]
  rw [if_neg h15]
  simp [Transport.Outgoing.outId]

/-- C4, as stated, is false: the registry's `Plugin not found` / `Agent not
found` / `Agent is disabled` errors are plain `Error`s, caught by
`handleRequest`'s generic `catch`, which replies with `INTERNAL_ERROR`
(−32603) — the defined custom codes −32001/−32002 are never used.
Concretely, invoking the disabled agent `opus` yields error code −32603 (and
spawns no subprocess), not −32002. -/
theorem C4_invoke_error_codes_counterexample :
    Transport.handleRequest
        ⟨[("claude_cli", ⟨"claude_cli", [⟨"opus", false⟩]⟩)], [], []⟩
        ⟨.ok [], .ok [], .ok [], .ok (), .ok ([], []), "/home/u"⟩
        ⟨"session-1", true, true, false⟩
        ⟨some (.num 2), "agent.invoke", ⟨"claude_cli", "opus", "hello", "/tmp/x", "", "", "", []⟩⟩ =
      ([.errorResp (some (.num 2)) (-32603) "Agent 'opus' is disabled"], 0) ∧
    (-32603 : Int) ≠ -32002 := by
  exact ⟨rfl, by decide⟩

/-- C4 (amended): for every `agent.invoke` request naming an unregistered
plugin, an agent absent from the plugin, or a disabled agent, the transport
replies with one JSON-RPC error of code −32603 carrying the registry's
message (`Plugin '…' not found` / `Agent '…' not found in plugin '…'` /
`Agent '…' is disabled`), and no subprocess is spawned. -/
theorem C4_invoke_error_codes_amended (reg : Transport.Registry)
    (senv : Transport.ServiceEnv) (ienv : Transport.InvokeEnv)
    (req : Transport.Request) (h : req.method = "agent.invoke") :
    (Transport.getPlugin reg req.params.plugin = none →
      Transport.handleRequest reg senv ienv req =
        ([.errorResp req.id (-32603)
            ("Plugin '" ++ req.params.plugin ++ "' not found")], 0)) ∧
    (∀ plugin, Transport.getPlugin reg req.params.plugin = some plugin →
      Transport.getAgent plugin req.params.agent = none →
      Transport.handleRequest reg senv ienv req =
        ([.errorResp req.id (-32603)
            ("Agent '" ++ req.params.agent ++ "' not found in plugin '" ++
              req.params.plugin ++ "'")], 0)) ∧
    (∀ plugin agent, Transport.getPlugin reg req.params.plugin = some plugin →
      Transport.getAgent plugin req.params.agent = some agent →
      agent.enabled = false →
      Transport.handleRequest reg senv ienv req =
        ([.errorResp req.id (-32603)
            ("Agent '" ++ req.params.agent ++ "' is disabled")], 0)) := by
  refine ⟨?_, ?_, ?_⟩
  · intro h1
    simp [Transport.handleRequest, h, Transport.registryInvoke, h1]
  · intro plugin h1 h2
    simp [Transport.handleRequest, h, Transport.registryInvoke, h1, h2]
  · intro plugin agent h1 h2 h3
    simp [Transport.handleRequest, h, Transport.registryInvoke, h1, h2, h3]

/-- Witness for C4 (amended): the three error scenarios at concrete
registries (empty registry; `claude_cli` with no agents; `claude_cli` with
`opus` disabled). -/
theorem C4_invoke_error_codes_amended_witness :
    (Transport.handleRequest ⟨[], [], []⟩
        ⟨.ok [], .ok [], .ok [], .ok (), .ok ([], []), "/home/u"⟩
        ⟨"session-1", true, true, false⟩
        ⟨some (.num 1), "agent.invoke", ⟨"claude_cli", "opus", "hello", "/tmp/x", "", "", "", []⟩⟩ =
      ([.errorResp (some (.num 1)) (-32603) "Plugin 'claude_cli' not found"], 0)) ∧
    (Transport.handleRequest ⟨[("claude_cli", ⟨"claude_cli", []⟩)], [], []⟩
        ⟨.ok [], .ok [], .ok [], .ok (), .ok ([], []), "/home/u"⟩
        ⟨"session-1", true, true, false⟩
        ⟨some (.num 1), "agent.invoke", ⟨"claude_cli", "opus", "hello", "/tmp/x", "", "", "", []⟩⟩ =
      ([.errorResp (some (.num 1)) (-32603)
          "Agent 'opus' not found in plugin 'claude_cli'"], 0)) ∧
    (Transport.handleRequest ⟨[("claude_cli", ⟨"claude_cli", [⟨"opus", false⟩]⟩)], [], []⟩
        ⟨.ok [], .ok [], .ok [], .ok (), .ok ([], []), "/home/u"⟩
        ⟨"session-1", true, true, false⟩
        ⟨some (.num 1), "agent.invoke", ⟨"claude_cli", "opus", "hello", "/tmp/x", "", "", "", []⟩⟩ =
      ([.errorResp (some (.num 1)) (-32603) "Agent 'opus' is disabled"], 0)) := by
  refine ⟨?_, ?_, ?_⟩
  · exact (C4_invoke_error_codes_amended ⟨[], [], []⟩
      ⟨.ok [], .ok [], .ok [], .ok (), .ok ([], []), "/home/u"⟩
      ⟨"session-1", true, true, false⟩
      ⟨some (.num 1), "agent.invoke", ⟨"claude_cli", "opus", "hello", "/tmp/x", "", "", "", []⟩⟩
      rfl).1 rfl
  · exact (C4_invoke_error_codes_amended ⟨[("claude_cli", ⟨"claude_cli", []⟩)], [], []⟩
      ⟨.ok [], .ok [], .ok [], .ok (), .ok ([], []), "/home/u"⟩
      ⟨"session-1", true, true, false⟩
      ⟨some (.num 1), "agent.invoke", ⟨"claude_cli", "opus", "hello", "/tmp/x", "", "", "", []⟩⟩
      rfl).2.1 ⟨"claude_cli", []⟩ rfl rfl
  · exact (C4_invoke_error_codes_amended
      ⟨[("claude_cli", ⟨"claude_cli", [⟨"opus", false⟩]⟩)], [], []⟩
      ⟨.ok [], .ok [], .ok [], .ok (), .ok ([], []), "/home/u"⟩
      ⟨"session-1", true, true, false⟩
      ⟨some (.num 1), "agent.invoke", ⟨"claude_cli", "opus", "hello", "/tmp/x", "", "", "", []⟩⟩
      rfl).2.2 ⟨"claude_cli", [⟨"opus", false⟩]⟩ ⟨"opus", false⟩ rfl rfl rfl

/-- C5, as stated, is false: for the path `/a_b-c` — a single segment over
the admitted alphabet, present on the filesystem — encoding (`/`→`-`) gives
`-a_b-c`, and the greedy walk decodes it to `/a_b/c`: the decoder splits the
sole entry `a_b-c` on both `_` and `-` into three pieces, which cannot match
the two id parts, and the fallback then splits the segment at its dash. -/
theorem C5_roundtrip_counterexample :
    Projects.resolveProjectPath ["a_b-c".toList]
        (Projects.encodePath (Projects.pathStr ["a_b-c".toList])) =
      "/a_b/c".toList ∧
    "/a_b/c".toList ≠ "/a_b-c".toList := by
  exact ⟨by decide, by decide⟩

/-- C5 (amended): the round trip holds for every absolute path of at most 100
existing directories whose segments are non-empty, drawn from the admitted
alphabet (ASCII letters, digits, `_`, `-`), and do not mix `_` with `-` nor
contain a leading, trailing or doubled `-`: encoding (replacing `/` by `-`)
and then decoding with the greedy filesystem walk against a filesystem
containing exactly that path yields the path again. -/
theorem C5_roundtrip_amended (segs : List Projects.Str)
    (hgood : ∀ s ∈ segs, Projects.goodSeg s) (hlen : segs.length ≤ 100) :
    Projects.resolveProjectPath segs (Projects.encodePath (Projects.pathStr segs)) =
      Projects.pathStr segs := by
  unfold Projects.resolveProjectPath
  have hslash : ∀ s ∈ segs, ∀ c ∈ s, c ≠ '/' := by
    intro s hs c hc hcslash
    have hgc := (hgood s hs).2.1 c hc
    rw [hcslash] at hgc
    exact absurd hgc (by decide)
  rw [Projects.idParts_encode_pathStr segs hslash]
  have h := Projects.resolveLoop_ok segs [] 100 hgood hlen
  rw [List.nil_append] at h
  rw [h]

/-- Witness for C5 (amended): the spec's own example path
`/Users/u/my_projects/demo` round-trips (its hypotheses hold: four good
segments). -/
theorem C5_roundtrip_amended_witness :
    (∀ s ∈ ["Users".toList, "u".toList, "my_projects".toList, "demo".toList],
      Projects.goodSeg s) ∧
    Projects.resolveProjectPath
        ["Users".toList, "u".toList, "my_projects".toList, "demo".toList]
        (Projects.encodePath (Projects.pathStr
          ["Users".toList, "u".toList, "my_projects".toList, "demo".toList])) =
      Projects.pathStr
        ["Users".toList, "u".toList, "my_projects".toList, "demo".toList] :=
  ⟨by decide, C5_roundtrip_amended _ (by decide) (by decide)⟩

/-- C6: for distinct session ids, bulk delete partitions the input ids into
`deleted` and `failed` (union is the input, intersection empty); an id is in
`deleted` exactly when its file existed and its unlink succeeded (and the
file is gone afterwards, while other files survive); one id failing never
aborts deletion of the remaining ids — captured by the membership
characterisations, which make each id's outcome depend only on its own file.
-/
theorem C6_bulk_delete_partition (fs ids : List String)
    (hids : ids.Nodup) (hfs : fs.Nodup) :
    (∀ x, (x ∈ (Sessions.deleteSessions fs ids).1.1 ∨
           x ∈ (Sessions.deleteSessions fs ids).1.2) ↔ x ∈ ids) ∧
    (∀ x, ¬(x ∈ (Sessions.deleteSessions fs ids).1.1 ∧
            x ∈ (Sessions.deleteSessions fs ids).1.2)) ∧
    (∀ x, x ∈ (Sessions.deleteSessions fs ids).1.1 ↔ x ∈ ids ∧ x ∈ fs) ∧
    (∀ x, x ∈ (Sessions.deleteSessions fs ids).1.2 ↔ x ∈ ids ∧ x ∉ fs) ∧
    (∀ x, x ∈ (Sessions.deleteSessions fs ids).1.1 →
      x ∉ (Sessions.deleteSessions fs ids).2) ∧
    (∀ x, x ∈ fs → x ∉ ids → x ∈ (Sessions.deleteSessions fs ids).2) := by
  have hdel := Sessions.mem_deleteSessions_deleted ids fs hids
  have hfail := Sessions.mem_deleteSessions_failed ids fs hids
  have hfin := Sessions.mem_deleteSessions_final ids fs hids hfs
  refine ⟨?_, ?_, hdel, hfail, ?_, ?_⟩
  · intro x
    rw [hdel x, hfail x]
    constructor
    · rintro (⟨h, _⟩ | ⟨h, _⟩) <;> exact h
    · intro h
      by_cases hx : x ∈ fs
      · exact Or.inl ⟨h, hx⟩
      · exact Or.inr ⟨h, hx⟩
  · intro x ⟨h1, h2⟩
    exact ((hfail x).mp h2).2 ((hdel x).mp h1).2
  · intro x h1
    rw [hfin x]
    rintro ⟨_, hnd⟩
    exact hnd h1
  · intro x hxfs hxids
    rw [hfin x]
    refine ⟨hxfs, fun h => hxids ((hdel x).mp h).1⟩

/-- Witness for C6: two files `a`, `b`; ids `[a, c]`; `a` is deleted, `c`
fails, `b` survives. -/
theorem C6_bulk_delete_partition_witness :
    ("a" ∈ (Sessions.deleteSessions ["a", "b"] ["a", "c"]).1.1 ↔
      "a" ∈ ["a", "c"] ∧ "a" ∈ ["a", "b"]) ∧
    ("c" ∈ (Sessions.deleteSessions ["a", "b"] ["a", "c"]).1.2 ↔
      "c" ∈ ["a", "c"] ∧ "c" ∉ ["a", "b"]) ∧
    ("b" ∈ ["a", "b"] → "b" ∉ ["a", "c"] →
      "b" ∈ (Sessions.deleteSessions ["a", "b"] ["a", "c"]).2) := by
  have h := C6_bulk_delete_partition ["a", "b"] ["a", "c"] (by decide) (by decide)
  exact ⟨h.2.2.1 "a", h.2.2.2.1 "c", h.2.2.2.2.2 "b"⟩

/-- C8, as stated, is false in one part: `PluginManifestSchema` has no
uniqueness constraint on agent ids, so a manifest with two agents sharing
the id `"a"` passes validation. -/
theorem C8_manifest_validation_counterexample :
    Loader.validateManifest
        ⟨some "p", some "1.0.0", some "llm", some "cli", some ["chat"],
         some "index.js",
         some [⟨some "a", some "Agent A", none, none⟩,
               ⟨some "a", some "Agent B", none, none⟩]⟩ =
      some ⟨"p", "1.0.0", "llm", "cli", ["chat"], "index.js",
            [⟨"a", "Agent A", none, none⟩, ⟨"a", "Agent B", none, none⟩]⟩ ∧
    ¬(["a", "a"] : List String).Nodup := by
  exact ⟨rfl, by decide⟩

/-- C8 (amended): manifest validation rejects an unknown `source`, an unknown
capability in `supports`, and any missing required field; duplicate agent
ids are NOT rejected; a directory whose plugin fails to load contributes
nothing and discovery of the remaining directories continues unchanged. -/
theorem C8_manifest_validation_amended (m : Loader.RawManifest)
    (cfg : Config.NovaConfig) (d : Loader.DirEntry)
    (rest : List Loader.DirEntry) :
    (∀ s, m.source = some s → Loader.validSource s = false →
      Loader.validateManifest m = none) ∧
    (∀ caps c, m.supports = some caps → c ∈ caps →
      Loader.validCapability c = false → Loader.validateManifest m = none) ∧
    (m.name = none → Loader.validateManifest m = none) ∧
    (m.version = none → Loader.validateManifest m = none) ∧
    (m.type = none → Loader.validateManifest m = none) ∧
    (m.source = none → Loader.validateManifest m = none) ∧
    (m.supports = none → Loader.validateManifest m = none) ∧
    (m.entry = none → Loader.validateManifest m = none) ∧
    (m.agents = none → Loader.validateManifest m = none) ∧
    (Loader.loadPlugin cfg d = none →
      Loader.discover cfg (d :: rest) = Loader.discover cfg rest) := by
  obtain ⟨name, version, type, source, supports, entry, agents⟩ := m
  refine ⟨?_, ?_, ?_, ?_, ?_, ?_, ?_, ?_, ?_, ?_⟩
  · rintro s rfl hbad
    cases name <;> cases version <;> cases type <;> cases supports <;>
      cases entry <;> cases agents <;> simp [Loader.validateManifest, hbad]
  · rintro caps c rfl hc hbad
    have hall : caps.all Loader.validCapability = false :=
      List.all_eq_false.mpr ⟨c, hc, by simp [hbad]⟩
    cases name <;> cases version <;> cases type <;> cases source <;>
      cases entry <;> cases agents <;> simp [Loader.validateManifest, hall]
  · rintro rfl
    simp [Loader.validateManifest]
  · rintro rfl
    cases name <;> simp [Loader.validateManifest]
  · rintro rfl
    cases name <;> cases version <;> simp [Loader.validateManifest]
  · rintro rfl
    cases name <;> cases version <;> cases type <;> simp [Loader.validateManifest]
  · rintro rfl
    cases name <;> cases version <;> cases type <;> cases source <;>
      simp [Loader.validateManifest]
  · rintro rfl
    cases name <;> cases version <;> cases type <;> cases source <;>
      cases supports <;> simp [Loader.validateManifest]
  · rintro rfl
    cases name <;> cases version <;> cases type <;> cases source <;>
      cases supports <;> cases entry <;> simp [Loader.validateManifest]
  · intro h
    simp [Loader.discover, h]

/-- Witness for C8 (amended): concrete rejections — unknown source `"weird"`,
unknown capability `"magic"`, a manifest missing `name` — and a failing
directory being skipped while discovery continues. -/
theorem C8_manifest_validation_amended_witness :
    (Loader.validateManifest ⟨some "p", some "1.0.0", some "llm", some "weird",
        some ["chat"], some "index.js", some []⟩ = none) ∧
    (Loader.validateManifest ⟨some "p", some "1.0.0", some "llm", some "cli",
        some ["magic"], some "index.js", some []⟩ = none) ∧
    (Loader.validateManifest ⟨none, some "1.0.0", some "llm", some "cli",
        some ["chat"], some "index.js", some []⟩ = none) ∧
    (Loader.discover ⟨[]⟩
        [⟨false, none, true, true, true⟩,
         ⟨true, some ⟨some "q", some "1.0.0", some "llm", some "cli", some ["chat"],
            some "index.js", some []⟩, true, true, true⟩] = ["q"]) := by
  refine ⟨?_, ?_, ?_, ?_⟩
  · exact (C8_manifest_validation_amended ⟨some "p", some "1.0.0", some "llm",
      some "weird", some ["chat"], some "index.js", some []⟩ ⟨[]⟩
      ⟨false, none, true, true, true⟩ []).1 "weird" rfl (by decide)
  · exact (C8_manifest_validation_amended ⟨some "p", some "1.0.0", some "llm",
      some "cli", some ["magic"], some "index.js", some []⟩ ⟨[]⟩
      ⟨false, none, true, true, true⟩ []).2.1 ["magic"] "magic" rfl (by decide) (by decide)
  · exact (C8_manifest_validation_amended ⟨none, some "1.0.0", some "llm",
      some "cli", some ["chat"], some "index.js", some []⟩ ⟨[]⟩
      ⟨false, none, true, true, true⟩ []).2.2.1 rfl
  · have h := (C8_manifest_validation_amended
      ⟨none, none, none, none, none, none, none⟩ ⟨[]⟩
      ⟨false, none, true, true, true⟩
      [⟨true, some ⟨some "q", some "1.0.0", some "llm", some "cli", some ["chat"],
         some "index.js", some []⟩, true, true, true⟩]).2.2.2.2.2.2.2.2.2 rfl
    rw [h]
    rfl

/-- C7, as stated, is false for the legacy `PTYSession` class (cited by the
claim): its `handleOutput` reassigns `this.id` to the upstream id on the
`system`/`init` record, and the emitted event carries the new id. -/
theorem C7_session_id_counterexample :
    Pty.legacyProcessLine ⟨"session-1"⟩ (.json ⟨"system", "init", "U-9", false⟩) =
      (⟨"U-9"⟩, { sessionId := "U-9", type := .output,
                  data := .msg ⟨"system", "init", "U-9", false⟩ }) ∧
    ("U-9" : String) ≠ "session-1" := by
  exact ⟨by simp [Pty.legacyProcessLine], by decide⟩

/-- C7 (amended): for `StreamingPTYSession` — the class the CLI plugin
actually instantiates — the id issued at construction is stable across every
execution (start, output processing including `system`/`init`, and exit), and
every event delivered carries that id.  (The legacy `PTYSession` class, by
contrast, overwrites its id on the init record.) -/
theorem C7_session_id_amended (st : Pty.SessState) (inp : Pty.StartInput)
    (lines : List Pty.ParsedLine) (ec : Int) :
    (Pty.runSession st inp lines ec).1.id = st.id ∧
    ∀ e ∈ (Pty.runSession st inp lines ec).2, e.sessionId = st.id := by
  unfold Pty.runSession
  cases hs : Pty.start st inp with
  | failed st' evs =>
    obtain ⟨h1, h2⟩ := Pty.start_failed_props hs
    exact ⟨h1, h2⟩
  | thrown => simp
  | spawned st1 =>
    have hid := Pty.start_spawned_id hs
    dsimp only
    refine ⟨?_, ?_⟩
    · rw [Pty.handleExit_fst_id, Pty.runLines_fst_id, hid]
    · intro e he
      rw [List.mem_append] at he
      rcases he with he | he
      · rw [Pty.mem_runLines_sessionId he, hid]
      · rw [Pty.handleExit_snd] at he
        simp at he
        subst he
        rw [Pty.runLines_fst_id, hid]

/-- C10: in every internal state and for every message content,
`StreamingPTYSession.sendMessage` returns `{success:false}` with the
hybrid-mode error string, leaves the session untouched and writes nothing to
the subprocess; consequently `ClaudeCLIPlugin.message` never succeeds for any
session (unknown sessions get `success:false` too). -/
theorem C10_sendMessage_never_succeeds (sessions : List (String × Pty.SessState))
    (st : Pty.SessState) (sessionId content : String) :
    Pty.sendMessage st content =
      (st, { success := false, error := some Pty.hybridModeError }, []) ∧
    (Pty.pluginMessage sessions sessionId content).1.success = false ∧
    (Pty.pluginMessage sessions sessionId content).2 = [] := by
  refine ⟨rfl, ?_, ?_⟩ <;>
  · unfold Pty.pluginMessage
    cases (sessions.find? (fun p => p.1 = sessionId)).map (·.2) <;>
      simp [Pty.sendMessage]

/-- Witness for C9: a concrete config exercising the "listed boolean" case:
`claude_cli` enabled with `opus` mapped to `false`. -/
theorem C9_isAgentEnabled_cases_witness :
    Config.isAgentEnabled
      ⟨[("claude_cli", ⟨true, some [("sonnet", true), ("opus", false)]⟩)]⟩
      "claude_cli" "opus" = false := by
  have h := C9_isAgentEnabled_cases
    ⟨[("claude_cli", ⟨true, some [("sonnet", true), ("opus", false)]⟩)]⟩
    "claude_cli" "opus"
  exact h.2.2.2.2 ⟨true, some [("sonnet", true), ("opus", false)]⟩
    [("sonnet", true), ("opus", false)] false (by decide) (by decide) (by decide) (by decide)

end Nova
